import Mathlib

/-!
# Verification of the rive-pixi orchestration layer

Shallow embedding of the `rive-pixi` source (the `RiveManager` document
cache and frame scheduler, and the `RiveSprite` playback unit) together
with proofs about the claims of its specification.

Conventions of the embedding:
* JavaScript `Map` objects that the claims only ever consult through
  `get`/`set`/`delete` are modelled either as association lists (the
  document cache, where eviction matters) or as lookup functions (the
  input-field table, which no claim iterates).
* JavaScript numbers are modelled as `Int` (reference counts) or `ℚ`
  (dimensions, elapsed times); truthiness of a number is `≠ 0`.
* Engine-native side effects (`advance`, `apply`, `draw`, `fire`) are
  modelled as events in an emitted trace, or as flags on the state.
-/

namespace RivePixi

/-! ## Document cache (`RiveManager.fileCache`)

`fileCache : Map<string, CachedRiveFile>` maps an asset key to a parsed
file carrying a `refCount`.  Only the per-key reference count is
observable to the claims, so a cache is an association list from keys to
reference counts; presence in the list is presence in the `Map` (the
native file object is deleted exactly when the entry is evicted). -/

abbrev Cache := List (String × Int)

def cacheGet (c : Cache) (k : String) : Option Int :=
  (c.find? (fun p => p.1 = k)).map (·.2)

def cacheSet (c : Cache) (k : String) (v : Int) : Cache :=
  if (c.find? (fun p => p.1 = k)).isSome then
    c.map (fun p => if p.1 = k then (k, v) else p)
  else
    c ++ [(k, v)]

def cacheDelete (c : Cache) (k : String) : Cache :=
  c.filter (fun p => ¬ (p.1 = k))

/-- Embeds `RiveManager.loadFile` for a string asset key, sequential case
(the call fully resolves before the next cache operation).  Cache hit:
`file.refCount++`.  Cache miss: parse, `file.refCount = 1`, insert. -/
def loadFileStep (c : Cache) (k : String) : Cache :=
  match cacheGet c k with
  | some rc => cacheSet c k (rc + 1)
  | none => cacheSet c k 1

/-- Embeds `RiveManager.releaseFile`: if the key is in the cache decrement
its refCount and, at `≤ 0`, delete the native file and evict the entry;
otherwise do nothing. -/
def releaseFile (c : Cache) (k : String) : Cache :=
  match cacheGet c k with
  | some rc =>
      if rc - 1 ≤ 0 then cacheDelete c k
      else cacheSet c k (rc - 1)
  | none => c

/-- A document is live for key `k` when the cache holds an entry for `k`
(the entry is evicted exactly when `file.delete()` releases the native
resources). -/
def isLive (c : Cache) (k : String) : Bool :=
  (cacheGet c k).isSome

/-- One sequential cache operation on a fixed key. -/
inductive FileOp where
  | load
  | release
deriving DecidableEq, Repr

def applyFileOp (k : String) (c : Cache) : FileOp → Cache
  | .load => loadFileStep c k
  | .release => releaseFile c k

def runFileOps (k : String) : List FileOp → Cache → Cache
  | [], c => c
  | op :: rest, c => runFileOps k rest (applyFileOp k c op)

def countLoads (ops : List FileOp) : Nat :=
  (ops.filter (fun o => o = .load)).length

def countReleases (ops : List FileOp) : Nat :=
  (ops.filter (fun o => o = .release)).length

/-- The single-key cache state holding reference count `n` when
positive, and no entry otherwise. -/
def keyState (k : String) (n : Int) : Cache :=
  if 0 < n then [(k, n)] else []

/-! ## Concurrent `loadFile` calls (C2)

`loadFile` is an `async` method with two `await` boundaries that matter
for a string key missing from the cache: the cache check runs
synchronously after `await this.initialize()`, and the insertion with
`refCount = 1` runs only after `await Assets.load` / `await rive.load`
resolve.  A task is therefore a two-phase program: `ready` (about to
perform the cache check) and `parsing` (cache check missed; fetch+parse
in flight).  The single-threaded event loop interleaves whole phases. -/

inductive TaskPhase where
  | ready
  | parsing
  | finished
deriving DecidableEq, Repr

structure ConcLoadState where
  cache : Cache
  parses : Nat
  tasks : List TaskPhase
deriving DecidableEq, Repr

/-- One event-loop step of `loadFile` task `i` on string key `k`.  From
`ready`, the synchronous cache check: a hit increments `refCount` and
resolves the task; a miss suspends into the fetch+parse.  From `parsing`,
the parse resolves: the new file gets `refCount = 1` and is inserted into
the cache, overwriting whatever another task may have inserted meanwhile. -/
def stepTask (k : String) (s : ConcLoadState) (i : Nat) : ConcLoadState :=
  match s.tasks[i]? with
  | none => s
  | some .ready =>
      match cacheGet s.cache k with
      | some rc => { s with cache := cacheSet s.cache k (rc + 1),
                            tasks := s.tasks.set i .finished }
      | none => { s with tasks := s.tasks.set i .parsing }
  | some .parsing =>
      { s with cache := cacheSet s.cache k 1,
               parses := s.parses + 1,
               tasks := s.tasks.set i .finished }
  | some .finished => s

def runSchedule (k : String) (s : ConcLoadState) : List Nat → ConcLoadState
  | [] => s
  | i :: rest => runSchedule k (stepTask k s i) rest

/-! ## Playback unit: state machines, animations, input fields

`RiveSprite` holds `stateMachines : StateMachineInstance[]`,
`animations : LinearAnimationInstance[]` and
`inputFields : Map<string, SMIInput>`.  A state-machine instance is
observable through its `name` and its inputs; an animation instance
through its `name`.  The input-field `Map` is only ever consulted through
`get`/`set`/`clear`, never iterated, so it is modelled by its lookup
function. -/

inductive SMIInputType where
  | bool
  | trigger
  | number
deriving DecidableEq, Repr

/-- An `SMIInput` handle: its name, its type tag, its current value and a
flag recording whether `fire()` has been called on it (the engine-side
effect of firing a trigger). -/
structure SMIInput where
  name : String
  type : SMIInputType
  value : Int
  fired : Bool
deriving DecidableEq, Repr

/-- The lookup function of `inputFields : Map<string, SMIInput>`. -/
def InputTable : Type := String → Option SMIInput

def tableEmpty : InputTable := fun _ => none

/-- `map.set(name, v)`, seen through lookups. -/
def tableSet (t : InputTable) (n : String) (v : SMIInput) : InputTable :=
  fun m => if m = n then some v else t m

/-- A `StateMachineInstance` as observed by this layer: its `name` and
its input handles (`inputCount()` / `input(i)`). -/
structure StateMachineDef where
  name : String
  inputs : List SMIInput
deriving DecidableEq, Repr

/-- An `Artboard` as observed by `loadStateMachine`/`playAnimation`: its
state-machine definitions in index order and its animation names in
index order. -/
structure ArtboardDef where
  machines : List StateMachineDef
  animationNames : List String
deriving DecidableEq, Repr

/-- The `RiveSprite` playback state touched by the claims: whether
`this._rive` is set, the artboard, the live state-machine and animation
instances, the input-field table and the `enabled` flag. -/
structure SpriteState where
  riveReady : Bool
  artboard : Option ArtboardDef
  stateMachines : List StateMachineDef
  animations : List String
  inputFields : InputTable
  enabled : Bool

/-- Embeds `RiveSprite.initInputFields`: clear the table, then for each
machine in order and each of its inputs in index order, `set` the input
under its name (the `asBool`/`asTrigger`/`asNumber` dispatch returns the
same handle for our purposes). -/
def initInputFields (machines : List StateMachineDef) : InputTable :=
  machines.foldl
    (fun tbl m => m.inputs.foldl (fun tbl input => tableSet tbl input.name input) tbl)
    tableEmpty

/-- Embeds `RiveSprite.unloadStateMachine`: filter out (and delete) the
machines with the given name.  Note it does not touch `inputFields`. -/
def unloadStateMachine (s : SpriteState) (name : String) : SpriteState :=
  { s with stateMachines := s.stateMachines.filter (fun machine => ¬ (machine.name = name)) }

/-- Looks up `artboard.stateMachineByName(name)`.  For a missing name the
engine hands back an unusable instance; its observable inputs are modelled
as empty and its name as the requested one. -/
def stateMachineByName (ab : ArtboardDef) (name : String) : StateMachineDef :=
  (ab.machines.find? (fun m => m.name = name)).getD { name := name, inputs := [] }

/-- Embeds `RiveSprite.loadStateMachine`: guard
`if (!this.artboard || !this._rive) return`;  an empty name list falls
back to the first state machine of the artboard (if any); each name is
unloaded then pushed anew; finally `initInputFields()` rebuilds the
table. -/
def loadStateMachine (s : SpriteState) (machines : List String) : SpriteState :=
  match s.artboard with
  | none => s
  | some ab =>
      if s.riveReady = false then s
      else
        let machines := if machines.isEmpty then
            (match ab.machines.head? with
             | some defaultMachine => [defaultMachine.name]
             | none => [])
          else machines
        let s' := machines.foldl (fun st name =>
          let machine := stateMachineByName ab name
          let st := unloadStateMachine st name
          { st with stateMachines := st.stateMachines ++ [machine] }) s
        { s' with inputFields := initInputFields s'.stateMachines }

/-- Embeds `RiveSprite.stopAnimation`: filter out (and delete) the
animation instances with the given name. -/
def stopAnimation (s : SpriteState) (name : String) : SpriteState :=
  { s with animations := s.animations.filter (fun a => ¬ (a = name)) }

/-- Embeds `RiveSprite.playAnimation`.  The guard is the code's literal
`if (!this.artboard && !this._rive) return` — it returns early only when
BOTH the artboard and the engine handle are absent.  Past the guard, the
no-names/no-state-machines branch evaluates
`this.artboard!.animationByIndex(0)` and the per-name loop evaluates
`this.artboard!.animationByName(name)`; dereferencing an absent artboard
is the `Except.error` outcome (a TypeError at runtime). -/
def playAnimation (s : SpriteState) (animations : List String) :
    Except Unit SpriteState :=
  if s.artboard.isNone && !s.riveReady then .ok s
  else
    let resolved : Except Unit (List String) :=
      if animations.isEmpty && s.stateMachines.isEmpty then
        match s.artboard with
        | none => .error ()
        | some ab =>
            .ok (match ab.animationNames.head? with
                 | some defaultAnimation => [defaultAnimation]
                 | none => [])
      else .ok animations
    match resolved with
    | .error e => .error e
    | .ok names =>
        names.foldlM (fun st name =>
          match st.artboard with
          | none => .error ()
          | some _ =>
              let st := stopAnimation st name
              Except.ok { st with animations := st.animations ++ [name] }) s

/-- Embeds `RiveSprite.setInput`: look the name up; write the value only
when the input exists and is not trigger-typed. -/
def setInput (t : InputTable) (name : String) (value : Int) : InputTable :=
  match t name with
  | some input =>
      if input.type ≠ .trigger then tableSet t name { input with value := value }
      else t
  | none => t

/-- Embeds `RiveSprite.fireTrigger`: look the name up; call `fire()` only
when the input exists and is trigger-typed. -/
def fireTrigger (t : InputTable) (name : String) : InputTable :=
  match t name with
  | some input =>
      if input.type = .trigger then tableSet t name { input with fired := true }
      else t
  | none => t

/-- Stated from the spec's words for C3, to be compared with the code's
`initInputFields`: the table obtained by inserting each machine's inputs
keyed by name, later insertions overwriting earlier ones — as a lookup,
the LAST input carrying the name wins. -/
def specLastInput : List SMIInput → String → Option SMIInput
  | [], _ => none
  | input :: rest, n =>
      match specLastInput rest n with
      | some found => some found
      | none => if input.name = n then some input else none

/-- The spec's rebuilt table over the machines in order. -/
def specRebuild (machines : List StateMachineDef) (n : String) : Option SMIInput :=
  specLastInput ((machines.map (·.inputs)).flatten) n

/-! ### Concrete playback states used by counterexamples and witnesses -/

def exInput : SMIInput := { name := "x", type := .number, value := 0, fired := false }

def exTrigger : SMIInput := { name := "t", type := .trigger, value := 0, fired := false }

def exMachine : StateMachineDef := { name := "M", inputs := [exInput, exTrigger] }

def exArtboard : ArtboardDef := { machines := [exMachine], animationNames := ["runner"] }

/-- A sprite that has finished initialisation: engine ready, artboard
loaded, one state machine `M` active, input table built. -/
def exSprite : SpriteState :=
  { riveReady := true
    artboard := some exArtboard
    stateMachines := [exMachine]
    animations := []
    inputFields := initInputFields [exMachine]
    enabled := false }

/-- A sprite whose engine handle is set but that holds no artboard and no
state machines (e.g. the artboard name did not resolve). -/
def exBareSprite : SpriteState :=
  { riveReady := true
    artboard := none
    stateMachines := []
    animations := []
    inputFields := tableEmpty
    enabled := false }

/-! ## Frame scheduler (`RiveManager.updateSprites`, centralized variant)

The scheduler holds `activeSprites : Set<RiveSprite>` and, once per host
tick, for every registered sprite with an artboard and `enabled`,
advances its state machines, then its animations, then the artboard, then
renders it.  The engine-native `advance`/`apply`/render side effects are
modelled as an emitted trace of events; each event records which sprite
it touched and the elapsed time passed to it. -/

inductive TickEvent where
  | smAdvance (sprite : Nat) (machine : String) (dt : ℚ)
  | animAdvance (sprite : Nat) (anim : String) (dt : ℚ)
  | artboardAdvance (sprite : Nat) (dt : ℚ)
  | render (sprite : Nat)
deriving DecidableEq, Repr

def eventSprite : TickEvent → Nat
  | .smAdvance i _ _ => i
  | .animAdvance i _ _ => i
  | .artboardAdvance i _ => i
  | .render i => i

/-- Embeds `sprite.advanceStateMachines(elapsedTime)`: every active
state-machine instance is advanced with the elapsed time, in order. -/
def advanceStateMachinesTrace (s : SpriteState) (i : Nat) (dt : ℚ) : List TickEvent :=
  s.stateMachines.map (fun m => .smAdvance i m.name dt)

/-- Embeds `sprite.advanceAnimations(elapsedTime)`: every active timeline
instance is advanced with the elapsed time and applied (`apply(1)`), in
order; one event stands for the advance-and-apply pair. -/
def advanceAnimationsTrace (s : SpriteState) (i : Nat) (dt : ℚ) : List TickEvent :=
  s.animations.map (fun a => .animAdvance i a dt)

/-- The per-sprite body of `RiveManager.updateSprites`: under the guard
`sprite.artboard && sprite.enabled`, advance state machines, then
animations, then `sprite.artboard.advance(elapsedTime)`, then
`sprite.renderToCanvas()` (clear, draw, flush, texture update — one
render event). -/
def spriteTickTrace (i : Nat) (s : SpriteState) (dt : ℚ) : List TickEvent :=
  if s.artboard.isSome && s.enabled then
    advanceStateMachinesTrace s i dt ++ advanceAnimationsTrace s i dt ++
      [.artboardAdvance i dt, .render i]
  else []

/-- The scheduler's state: the registration set `activeSprites` (a JS
`Set`, iterated in insertion order) and the sprites themselves. -/
structure ManagerState where
  activeSprites : List Nat
  sprites : Nat → SpriteState

/-- Embeds `RiveManager.registerSprite`: `Set.add` — append if absent. -/
def registerSprite (m : ManagerState) (i : Nat) : ManagerState :=
  { m with activeSprites :=
      if i ∈ m.activeSprites then m.activeSprites else m.activeSprites ++ [i] }

/-- Embeds `RiveManager.unregisterSprite`: `Set.delete`. -/
def unregisterSprite (m : ManagerState) (i : Nat) : ManagerState :=
  { m with activeSprites := m.activeSprites.filter (fun j => ¬ (j = i)) }

/-- The full trace of one `updateSprites` tick. -/
def updateSpritesTrace (m : ManagerState) (dt : ℚ) : List TickEvent :=
  (m.activeSprites.map (fun i => spriteTickTrace i (m.sprites i) dt)).flatten

def setEnabledFlag (m : ManagerState) (i : Nat) (b : Bool) : ManagerState :=
  { m with sprites := Function.update m.sprites i { m.sprites i with enabled := b } }

/-- Embeds `RiveSprite.enable`: `this.enabled = true` then
`registerSprite(this)`. -/
def enableSprite (m : ManagerState) (i : Nat) : ManagerState :=
  registerSprite (setEnabledFlag m i true) i

/-- Embeds `RiveSprite.disable`: `this.enabled = false` then
`unregisterSprite(this)`. -/
def disableSprite (m : ManagerState) (i : Nat) : ManagerState :=
  unregisterSprite (setEnabledFlag m i false) i

/-- The system-level operations relevant to the scheduler claims. -/
inductive SysOp where
  | tick (dt : ℚ)
  | enableOp (i : Nat)
  | disableOp (i : Nat)
deriving DecidableEq, Repr

def applySysOp (m : ManagerState) : SysOp → ManagerState
  | .tick _ => m
  | .enableOp i => enableSprite m i
  | .disableOp i => disableSprite m i

def sysOpTrace (m : ManagerState) : SysOp → List TickEvent
  | .tick dt => updateSpritesTrace m dt
  | .enableOp _ => []
  | .disableOp _ => []

def sysTrace (m : ManagerState) : List SysOp → List TickEvent
  | [] => []
  | op :: rest => sysOpTrace m op ++ sysTrace (applySysOp m op) rest

/-- A populated scheduler: sprite `0` enabled and registered. -/
def exManager : ManagerState :=
  { activeSprites := [0]
    sprites := fun _ => { exSprite with enabled := true } }

/-- The enabled concrete sprite. -/
def exSpriteOn : SpriteState := { exSprite with enabled := true, animations := ["runner"] }

/-! ## Sizing engine (`RiveSprite.updateDimensions` / `updateSize`)

The dimension computation common to both source variants, over the
artboard's native bounds.  JavaScript number truthiness (`if
(this.maxWidth)`) is `≠ 0`; numbers are modelled as `ℚ`. -/

structure ArtboardBounds where
  minX : ℚ
  minY : ℚ
  maxX : ℚ
  maxY : ℚ
deriving DecidableEq, Repr

/-- Embeds `RiveSprite.updateDimensions` (the same computation is inlined
in the other variant's `updateSize`): width, when set, is the primary
dimension and height is re-derived; otherwise height, when set, is
primary; otherwise the native dimensions are used.  Returns the computed
`(maxWidth, maxHeight)` pair. -/
def updateDimensions (bounds : ArtboardBounds) (maxWidth maxHeight : ℚ) : ℚ × ℚ :=
  let originalWidth := bounds.maxX - bounds.minX
  let originalHeight := bounds.maxY - bounds.minY
  let aspect := originalWidth / originalHeight
  if maxWidth ≠ 0 then (maxWidth, maxWidth / aspect)
  else if maxHeight ≠ 0 then (maxHeight * aspect, maxHeight)
  else (originalWidth, originalHeight)

/-! ## Lemmas and claim theorems -/

-- sanity checks on concrete cache runs
example : runFileOps "a" [.load, .load, .release] [] = [("a", 1)] := by decide
example : runFileOps "a" [.load, .release] [] = [] := by decide
example : runFileOps "a" [.release] [] = [] := by decide
example : runFileOps "a" [.release, .load] [] = [("a", 1)] := by decide

lemma cacheGet_single (k : String) (n : Int) : cacheGet [(k, n)] k = some n := by
  simp [cacheGet]

lemma cacheSet_single (k : String) (n v : Int) : cacheSet [(k, n)] k v = [(k, v)] := by
  simp [cacheSet]

lemma cacheDelete_single (k : String) (n : Int) : cacheDelete [(k, n)] k = [] := by
  simp [cacheDelete]

lemma keyState_pos (k : String) {n : Int} (h : 0 < n) : keyState k n = [(k, n)] := by
  simp [keyState, h]

lemma keyState_nonpos (k : String) {n : Int} (h : ¬ 0 < n) : keyState k n = [] := by
  simp [keyState, h]

lemma cacheGet_keyState (k : String) (n : Int) :
    cacheGet (keyState k n) k = if 0 < n then some n else none := by
  by_cases h : 0 < n
  · rw [keyState_pos k h, cacheGet_single, if_pos h]
  · rw [keyState_nonpos k h, if_neg h]; rfl

lemma loadFileStep_keyState (k : String) (n : Int) (hn : 0 ≤ n) :
    loadFileStep (keyState k n) k = keyState k (n + 1) := by
  rcases eq_or_lt_of_le hn with h | h
  · rw [keyState_nonpos k (show ¬ 0 < n by omega),
      keyState_pos k (show (0 : Int) < n + 1 by omega), ← h]
    rfl
  · rw [keyState_pos k h, keyState_pos k (show (0 : Int) < n + 1 by omega)]
    simp only [loadFileStep, cacheGet_single, cacheSet_single]

lemma releaseFile_keyState (k : String) (n : Int) (hn : 0 < n) :
    releaseFile (keyState k n) k = keyState k (n - 1) := by
  by_cases h1 : n - 1 ≤ 0
  · rw [keyState_pos k hn, keyState_nonpos k (show ¬ 0 < n - 1 by omega)]
    simp only [releaseFile, cacheGet_single, if_pos h1, cacheDelete_single]
  · rw [keyState_pos k hn, keyState_pos k (show (0 : Int) < n - 1 by omega)]
    simp only [releaseFile, cacheGet_single, if_neg h1, cacheSet_single]

lemma countLoads_cons (op : FileOp) (l : List FileOp) :
    countLoads (op :: l) = countLoads l + (if op = .load then 1 else 0) := by
  cases op <;> simp [countLoads, List.filter_cons]

lemma countReleases_cons (op : FileOp) (l : List FileOp) :
    countReleases (op :: l) = countReleases l + (if op = .release then 1 else 0) := by
  cases op <;> simp [countReleases, List.filter_cons]

/-- Characterisation of sequential cache runs: provided releases never
outnumber loads on any prefix (relative to a starting count `n`), the
cache tracks the running difference. -/
lemma runFileOps_keyState (k : String) :
    ∀ (ops : List FileOp) (n : Int), 0 ≤ n →
      (∀ i, i ≤ ops.length →
        (countReleases (ops.take i) : Int) ≤ n + countLoads (ops.take i)) →
      runFileOps k ops (keyState k n) =
        keyState k (n + countLoads ops - countReleases ops) := by
  intro ops
  induction ops with
  | nil =>
      intro n _ _
      simp [runFileOps, countLoads, countReleases]
  | cons op rest ih =>
      intro n hn hpre
      cases op with
      | load =>
          have step : applyFileOp k (keyState k n) FileOp.load = keyState k (n + 1) :=
            loadFileStep_keyState k n hn
          have hrec := ih (n + 1) (by omega) (by
            intro i hi
            have h := hpre (i + 1) (by simpa using Nat.succ_le_succ hi)
            rw [List.take_succ_cons, countLoads_cons, countReleases_cons] at h
            simp only [if_pos rfl, reduceCtorEq, if_neg] at h
            push_cast at h ⊢
            omega)
          simp only [runFileOps, step, hrec]
          congr 1
          rw [countLoads_cons, countReleases_cons]
          simp only [if_pos rfl, reduceCtorEq, if_neg]
          push_cast
          omega
      | release =>
          have h1 := hpre 1 (by simp)
          rw [show List.take 1 (FileOp.release :: rest) = [FileOp.release] by simp,
            countLoads_cons, countReleases_cons] at h1
          simp only [countLoads, countReleases, List.filter_nil, List.length_nil,
            reduceCtorEq, if_neg, if_pos rfl] at h1
          have hn1 : (1 : Int) ≤ n := by push_cast at h1; omega
          have step : applyFileOp k (keyState k n) FileOp.release = keyState k (n - 1) :=
            releaseFile_keyState k n (by omega)
          have hrec := ih (n - 1) (by omega) (by
            intro i hi
            have h := hpre (i + 1) (by simpa using Nat.succ_le_succ hi)
            rw [List.take_succ_cons, countLoads_cons, countReleases_cons] at h
            simp only [if_pos rfl, reduceCtorEq, if_neg] at h
            push_cast at h ⊢
            omega)
          simp only [runFileOps, step, hrec]
          congr 1
          rw [countLoads_cons, countReleases_cons]
          simp only [if_pos rfl, reduceCtorEq, if_neg]
          push_cast
          omega

/-- The claim of C1 as literally stated is false: a `releaseFile` on the
not-yet-cached key is a no-op, after which a single `loadFile` leaves a
live document although loads (1) do not exceed releases (1). -/
theorem c1_counterexample :
    isLive (runFileOps "a" [.release, .load] []) "a" = true ∧
      ¬ countLoads [FileOp.release, FileOp.load] >
          countReleases [FileOp.release, FileOp.load] := by
  constructor
  · decide
  · decide

/-- C1 (amended): over any sequence of sequential `loadFile`/`releaseFile`
calls on one key in which releases never outnumber loads on any prefix
(equivalently: `releaseFile` is never invoked while the key is absent),
the cached document is live iff the number of loads so far exceeds the
number of releases; moreover `releaseFile` on a key not in the cache
leaves the cache unchanged. -/
theorem c1_liveness_iff_loads_exceed_releases (k : String) (ops : List FileOp)
    (hpre : ∀ i, i ≤ ops.length →
      countReleases (ops.take i) ≤ countLoads (ops.take i)) :
    (isLive (runFileOps k ops []) k = true ↔
      countLoads ops > countReleases ops) ∧
      (∀ c : Cache, cacheGet c k = none → releaseFile c k = c) := by
  constructor
  · have h0 : keyState k 0 = [] := by simp [keyState]
    have hrun := runFileOps_keyState k ops 0 le_rfl (by
      intro i hi
      have := hpre i hi
      omega)
    rw [← h0, hrun]
    unfold isLive
    rw [cacheGet_keyState]
    by_cases h : (0 : Int) < 0 + countLoads ops - countReleases ops
    · simp only [h, if_pos]
      constructor
      · intro _; omega
      · intro _; simp
    · simp only [h, if_neg, not_false_iff]
      constructor
      · simp
      · intro hgt; omega
  · intro c hc
    simp [releaseFile, hc]

/-- Witness for the amended C1 at the concrete run
`[load, load, release]`. -/
theorem c1_witness :
    isLive (runFileOps "a" [.load, .load, .release] []) "a" = true := by
  have h := c1_liveness_iff_loads_exceed_releases "a" [.load, .load, .release]
    (by decide)
  exact h.1.mpr (by decide)

/-- C2 fails on the code: two concurrent `loadFile` calls on the same
uncached key, each performing its cache check before either parse
resolves, parse the bytes twice, and the second insertion overwrites the
first so the final cached `refCount` is `1`, not `2`.  (The claim holds
only for the sequential schedule, where the second check hits the cache.) -/
theorem c2_concurrent_double_parse :
    (runSchedule "a" ⟨[], 0, [.ready, .ready]⟩ [0, 1, 0, 1]).parses = 2 ∧
      cacheGet (runSchedule "a" ⟨[], 0, [.ready, .ready]⟩ [0, 1, 0, 1]).cache "a" =
        some 1 ∧
      (runSchedule "a" ⟨[], 0, [.ready, .ready]⟩ [0, 1, 0, 1]).tasks =
        [.finished, .finished] ∧
      (runSchedule "a" ⟨[], 0, [.ready, .ready]⟩ [0, 0, 1]).parses = 1 ∧
      cacheGet (runSchedule "a" ⟨[], 0, [.ready, .ready]⟩ [0, 0, 1]).cache "a" =
        some 2 := by
  decide

lemma foldl_tableSet_apply (l : List SMIInput) (t : InputTable) (n : String) :
    (l.foldl (fun tbl input => tableSet tbl input.name input) t) n =
      match specLastInput l n with
      | some found => some found
      | none => t n := by
  induction l generalizing t with
  | nil => rfl
  | cons input rest ih =>
      rw [List.foldl_cons, ih]
      cases h : specLastInput rest n with
      | some found => simp [specLastInput, h]
      | none =>
          by_cases he : input.name = n
          · simp [specLastInput, h, tableSet, he]
          · have he2 : ¬ n = input.name := fun hh => he hh.symm
            simp [specLastInput, h, tableSet, he, he2]

lemma initInputFields_apply (machines : List StateMachineDef) (n : String) :
    initInputFields machines n = specRebuild machines n := by
  have h1 : initInputFields machines =
      ((machines.map (·.inputs)).flatten).foldl
        (fun tbl input => tableSet tbl input.name input) tableEmpty := by
    rw [List.foldl_flatten, List.foldl_map]
    rfl
  rw [h1, foldl_tableSet_apply]
  unfold specRebuild
  cases specLastInput ((machines.map (·.inputs)).flatten) n <;> rfl

/-- C3 as stated is false at a concrete input: a direct
`unloadStateMachine("M")` removes the only machine, yet the stale entry
for its input `x` survives in `inputFields`, while the table rebuilt from
the (empty) remaining machines has no entry for `x`. -/
theorem c3_counterexample :
    (unloadStateMachine exSprite "M").stateMachines = [] ∧
      (unloadStateMachine exSprite "M").inputFields "x" = some exInput ∧
      initInputFields (unloadStateMachine exSprite "M").stateMachines "x" = none := by
  refine ⟨by decide, by decide, by decide⟩

/-- C3 (amended): after `loadStateMachine` (engine ready and an artboard
loaded) the input-field table agrees, at every name, with the table
obtained by iterating the resulting state machines in order and inserting
each machine's inputs keyed by name, later insertions overwriting earlier
ones; a direct `unloadStateMachine` leaves the input-field table
untouched (only `loadStateMachine` rebuilds it). -/
theorem c3_input_table_rebuild (s : SpriteState) (names : List String)
    (hab : s.artboard.isSome = true) (hr : s.riveReady = true) :
    (∀ n, (loadStateMachine s names).inputFields n =
        specRebuild (loadStateMachine s names).stateMachines n) ∧
      (∀ name, (unloadStateMachine s name).inputFields = s.inputFields) := by
  constructor
  · intro n
    obtain ⟨ab, hab'⟩ := Option.isSome_iff_exists.mp hab
    unfold loadStateMachine
    rw [hab', hr]
    simp only [Bool.true_eq_false, if_neg, Bool.false_eq_true, not_false_iff]
    exact initInputFields_apply _ n
  · intro name
    rfl

/-- Witness for the amended C3 at the concrete sprite. -/
theorem c3_witness :
    (loadStateMachine exSprite ["M"]).inputFields "x" =
      specRebuild (loadStateMachine exSprite ["M"]).stateMachines "x" :=
  (c3_input_table_rebuild exSprite ["M"] (by decide) (by decide)).1 "x"

/-- C4: with an artboard loaded and at least one active state-machine
instance, `playAnimation` with no names resolves to an empty name list
(the implicit default requires BOTH an empty name list and no state
machine) and therefore adds no animation instance: the state is returned
unchanged. -/
theorem c4_no_default_animation_with_state_machine (s : SpriteState)
    (hab : s.artboard.isSome = true) (hsm : s.stateMachines ≠ []) :
    playAnimation s [] = .ok s := by
  obtain ⟨ab, hab'⟩ := Option.isSome_iff_exists.mp hab
  unfold playAnimation
  rw [hab']
  simp [hsm]
  rfl

/-- Witness for C4 at the concrete sprite with machine `M` active. -/
theorem c4_witness : playAnimation exSprite [] = .ok exSprite :=
  c4_no_default_animation_with_state_machine exSprite (by decide) (by decide)

/-- C9 fails on the code: the guard is `!this.artboard && !this._rive`,
so once the engine is initialised (`_rive` set) a call with no artboard,
no names and no state machines passes the guard and dereferences the
absent artboard in `this.artboard!.animationByIndex(0)` — the error
branch the claim calls unreachable is reached. -/
theorem c9_guard_does_not_protect :
    playAnimation exBareSprite [] = .error () := rfl

/-- C8: `setInput` leaves the table unchanged when the named field is
trigger-typed or absent, and otherwise writes the value under the name;
`fireTrigger` leaves the table unchanged when the named field is not
trigger-typed or absent, and otherwise fires the trigger. -/
theorem c8_typed_input_guards (t : InputTable) (name : String) (value : Int) :
    (∀ input, t name = some input → input.type = .trigger →
        setInput t name value = t) ∧
      (t name = none → setInput t name value = t) ∧
      (∀ input, t name = some input → input.type ≠ .trigger →
        setInput t name value name = some { input with value := value }) ∧
      (∀ input, t name = some input → input.type ≠ .trigger →
        fireTrigger t name = t) ∧
      (t name = none → fireTrigger t name = t) ∧
      (∀ input, t name = some input → input.type = .trigger →
        fireTrigger t name name = some { input with fired := true }) := by
  refine ⟨?_, ?_, ?_, ?_, ?_, ?_⟩
  · intro input h ht
    unfold setInput
    rw [h]
    simp [ht]
  · intro h
    unfold setInput
    rw [h]
  · intro input h ht
    unfold setInput
    rw [h]
    simp [ht, tableSet]
  · intro input h ht
    unfold fireTrigger
    rw [h]
    simp [ht]
  · intro h
    unfold fireTrigger
    rw [h]
  · intro input h ht
    unfold fireTrigger
    rw [h]
    simp [ht, tableSet]

/-- Witness for C8: on the concrete table of `exSprite` (a number input
`x` and a trigger `t`), setting the trigger and firing the number input
are both no-ops, while setting `x` writes and firing `t` fires. -/
theorem c8_witness :
    setInput exSprite.inputFields "t" 5 = exSprite.inputFields ∧
      fireTrigger exSprite.inputFields "x" = exSprite.inputFields ∧
      setInput exSprite.inputFields "x" 5 "x" = some { exInput with value := 5 } ∧
      fireTrigger exSprite.inputFields "t" "t" = some { exTrigger with fired := true } := by
  refine ⟨?_, ?_, ?_, ?_⟩
  · exact (c8_typed_input_guards exSprite.inputFields "t" 5).1 exTrigger
      (by decide) (by decide)
  · exact (c8_typed_input_guards exSprite.inputFields "x" 0).2.2.2.1 exInput
      (by decide) (by decide)
  · exact (c8_typed_input_guards exSprite.inputFields "x" 5).2.2.1 exInput
      (by decide) (by decide)
  · exact (c8_typed_input_guards exSprite.inputFields "t" 0).2.2.2.2.2 exTrigger
      (by decide) (by decide)

lemma eventSprite_of_mem_spriteTickTrace {e : TickEvent} {i : Nat}
    {s : SpriteState} {dt : ℚ} (h : e ∈ spriteTickTrace i s dt) :
    eventSprite e = i := by
  unfold spriteTickTrace at h
  by_cases hc : (s.artboard.isSome && s.enabled) = true
  · rw [if_pos hc] at h
    simp only [advanceStateMachinesTrace, advanceAnimationsTrace, List.mem_append,
      List.mem_map, List.mem_cons, List.mem_singleton] at h
    rcases h with (⟨m, _, rfl⟩ | ⟨a, _, rfl⟩) | h | h | hfalse
    · rfl
    · rfl
    · rw [h]; rfl
    · rw [h]; rfl
    · exact absurd hfalse (List.not_mem_nil e)
  · rw [if_neg hc] at h
    exact absurd h (List.not_mem_nil e)

lemma eventSprite_mem_activeSprites {e : TickEvent} {m : ManagerState} {dt : ℚ}
    (h : e ∈ updateSpritesTrace m dt) : eventSprite e ∈ m.activeSprites := by
  unfold updateSpritesTrace at h
  rw [List.mem_flatten] at h
  obtain ⟨l, hl, he⟩ := h
  rw [List.mem_map] at hl
  obtain ⟨i, hi, rfl⟩ := hl
  rw [eventSprite_of_mem_spriteTickTrace he]
  exact hi

lemma notMem_applySysOp {i : Nat} {m : ManagerState} {op : SysOp}
    (hi : i ∉ m.activeSprites) (hop : op ≠ .enableOp i) :
    i ∉ (applySysOp m op).activeSprites := by
  cases op with
  | tick dt => exact hi
  | enableOp j =>
      have hj : j ≠ i := fun h => hop (by rw [h])
      simp only [applySysOp, enableSprite, registerSprite, setEnabledFlag]
      by_cases hmem : j ∈ m.activeSprites
      · rw [if_pos hmem]; exact hi
      · rw [if_neg hmem]
        intro hcon
        rcases List.mem_append.mp hcon with h1 | h1
        · exact hi h1
        · exact hj (List.mem_singleton.mp h1).symm
  | disableOp j =>
      simp only [applySysOp, disableSprite, unregisterSprite, setEnabledFlag]
      intro hcon
      exact hi (List.mem_filter.mp hcon).1

lemma sysTrace_avoids_unregistered {i : Nat} :
    ∀ (ops : List SysOp) (m : ManagerState), i ∉ m.activeSprites →
      (∀ op ∈ ops, op ≠ .enableOp i) →
      ∀ e ∈ sysTrace m ops, eventSprite e ≠ i := by
  intro ops
  induction ops with
  | nil =>
      intro m _ _ e he
      exact absurd he (List.not_mem_nil e)
  | cons op rest ih =>
      intro m hi hops e he
      rcases List.mem_append.mp he with h1 | h1
      · cases op with
        | tick dt =>
            intro hcon
            exact hi (hcon ▸ eventSprite_mem_activeSprites h1)
        | enableOp j => exact absurd h1 (List.not_mem_nil e)
        | disableOp j => exact absurd h1 (List.not_mem_nil e)
      · exact ih (applySysOp m op)
          (notMem_applySysOp hi (hops op (List.mem_cons_self op rest)))
          (fun o ho => hops o (List.mem_cons_of_mem op ho)) e h1

/-- C7: after `disable()` on sprite `i`, for every subsequent sequence of
scheduler ticks (and enables/disables of other sprites) that does not
contain `enable()` of `i`, no tick event touches `i`: its state machines,
animations and artboard receive no advance and it is not rendered. -/
theorem c7_disable_cancels_ticks (m : ManagerState) (i : Nat) (ops : List SysOp)
    (hops : ∀ op ∈ ops, op ≠ .enableOp i) :
    ∀ e ∈ sysTrace (disableSprite m i) ops, eventSprite e ≠ i := by
  apply sysTrace_avoids_unregistered ops (disableSprite m i) ?_ hops
  simp only [disableSprite, unregisterSprite, setEnabledFlag]
  intro hcon
  have := (List.mem_filter.mp hcon).2
  simp at this

/-- Witness for C7: concretely disabling sprite `0` and running one tick
produces no event touching sprite `0`. -/
theorem c7_witness :
    (sysTrace (disableSprite exManager 0) [SysOp.tick 1]).all
        (fun e => decide (eventSprite e ≠ 0)) = true := by
  rw [List.all_eq_true]
  intro e he
  exact decide_eq_true
    (c7_disable_cancels_ticks exManager 0 [SysOp.tick 1] (by decide) e he)

lemma count_artboardAdvance_of_active (i : Nat) (s : SpriteState) (dt : ℚ)
    (hab : s.artboard.isSome = true) (hen : s.enabled = true) :
    (spriteTickTrace i s dt).count (.artboardAdvance i dt) = 1 := by
  have hcond : (s.artboard.isSome && s.enabled) = true := by rw [hab, hen]; rfl
  unfold spriteTickTrace
  rw [if_pos hcond, List.count_append, List.count_append]
  have h1 : (advanceStateMachinesTrace s i dt).count (.artboardAdvance i dt) = 0 := by
    rw [List.count_eq_zero]
    intro hmem
    rw [advanceStateMachinesTrace, List.mem_map] at hmem
    obtain ⟨mach, _, heq⟩ := hmem
    exact absurd heq (by simp)
  have h2 : (advanceAnimationsTrace s i dt).count (.artboardAdvance i dt) = 0 := by
    rw [List.count_eq_zero]
    intro hmem
    rw [advanceAnimationsTrace, List.mem_map] at hmem
    obtain ⟨a, _, heq⟩ := hmem
    exact absurd heq (by simp)
  rw [h1, h2]
  simp [List.count_cons]

lemma count_artboardAdvance_of_other (j i : Nat) (s : SpriteState) (dt dt' : ℚ)
    (hne : j ≠ i) : (spriteTickTrace j s dt).count (.artboardAdvance i dt') = 0 := by
  rw [List.count_eq_zero]
  intro hmem
  have h := eventSprite_of_mem_spriteTickTrace hmem
  simp only [eventSprite] at h
  exact hne h.symm

/-- C5: for an enabled sprite with a loaded artboard, the events produced
by one scheduler tick are exactly: every active state-machine instance
advanced first, then every active timeline instance advanced and applied,
then the artboard advanced, then the render — all with the same elapsed
time — and the artboard advance occurs exactly once. -/
theorem c5_advancement_order (i : Nat) (s : SpriteState) (dt : ℚ)
    (hab : s.artboard.isSome = true) (hen : s.enabled = true) :
    spriteTickTrace i s dt =
        s.stateMachines.map (fun m => .smAdvance i m.name dt) ++
          s.animations.map (fun a => .animAdvance i a dt) ++
          [.artboardAdvance i dt, .render i] ∧
      (spriteTickTrace i s dt).count (.artboardAdvance i dt) = 1 := by
  have hcond : (s.artboard.isSome && s.enabled) = true := by rw [hab, hen]; rfl
  refine ⟨?_, count_artboardAdvance_of_active i s dt hab hen⟩
  unfold spriteTickTrace
  rw [if_pos hcond]
  rfl

/-- Witness for C5 at a concrete enabled sprite with one state machine
and one animation. -/
theorem c5_witness :
    spriteTickTrace 0 exSpriteOn 1 =
        [.smAdvance 0 "M" 1, .animAdvance 0 "runner" 1,
          .artboardAdvance 0 1, .render 0] ∧
      (spriteTickTrace 0 exSpriteOn 1).count (.artboardAdvance 0 1) = 1 := by
  have h := c5_advancement_order 0 exSpriteOn 1 (by decide) (by decide)
  exact ⟨by rw [h.1]; rfl, h.2⟩

lemma sum_map_ite_count (l : List Nat) (i : Nat) :
    (l.map (fun j => if j = i then 1 else 0)).sum = l.count i := by
  induction l with
  | nil => rfl
  | cons j rest ih =>
      by_cases h : j = i
      · simp [h, ih, List.count_cons, Nat.add_comm]
      · simp [h, ih, List.count_cons]

/-- C10: scheduler registration is set membership — a second `enable()`
leaves the whole scheduler state (registration set and sprite flags)
exactly as one `enable()` does, and after enabling, a tick advances the
sprite's artboard exactly once. -/
theorem c10_enable_idempotent (m : ManagerState) (i : Nat)
    (hnd : m.activeSprites.Nodup)
    (hab : (m.sprites i).artboard.isSome = true) :
    enableSprite (enableSprite m i) i = enableSprite m i ∧
      ∀ dt, (updateSpritesTrace (enableSprite m i) dt).count
          (.artboardAdvance i dt) = 1 := by
  constructor
  · unfold enableSprite registerSprite setEnabledFlag
    by_cases hmem : i ∈ m.activeSprites
    · simp [hmem, Function.update_same, Function.update_idem]
    · simp [hmem, Function.update_same, Function.update_idem]
  · intro dt
    set v : SpriteState := { m.sprites i with enabled := true } with hv
    have hsprites : (enableSprite m i).sprites = Function.update m.sprites i v := rfl
    have hactive : (enableSprite m i).activeSprites =
        if i ∈ m.activeSprites then m.activeSprites else m.activeSprites ++ [i] := rfl
    have hcount_per : ∀ j, (spriteTickTrace j ((enableSprite m i).sprites j) dt).count
        (.artboardAdvance i dt) = if j = i then 1 else 0 := by
      intro j
      by_cases hj : j = i
      · subst hj
        rw [hsprites, Function.update_same, if_pos rfl]
        exact count_artboardAdvance_of_active j v dt hab rfl
      · rw [if_neg hj]
        exact count_artboardAdvance_of_other j i _ dt dt hj
    unfold updateSpritesTrace
    rw [List.count_flatten, List.map_map]
    have hmapeq : ((enableSprite m i).activeSprites.map
          ((List.count (TickEvent.artboardAdvance i dt)) ∘
            fun j => spriteTickTrace j ((enableSprite m i).sprites j) dt)) =
        (enableSprite m i).activeSprites.map (fun j => if j = i then 1 else 0) := by
      apply List.map_congr_left
      intro j _
      exact hcount_per j
    rw [hmapeq, sum_map_ite_count]
    have hnd' : (enableSprite m i).activeSprites.Nodup := by
      rw [hactive]
      by_cases hmem : i ∈ m.activeSprites
      · rw [if_pos hmem]; exact hnd
      · rw [if_neg hmem]
        exact hnd.append (List.nodup_singleton i)
          (fun a ha hb => hmem ((List.mem_singleton.mp hb) ▸ ha))
    have hmem' : i ∈ (enableSprite m i).activeSprites := by
      rw [hactive]
      by_cases hmem : i ∈ m.activeSprites
      · rw [if_pos hmem]; exact hmem
      · rw [if_neg hmem]
        exact List.mem_append.mpr (Or.inr (List.mem_singleton.mpr rfl))
    exact List.count_eq_one_of_mem hnd' hmem'

/-- Witness for C10: a fresh scheduler with sprite `0` enabled twice. -/
theorem c10_witness :
    enableSprite (enableSprite exManager 0) 0 = enableSprite exManager 0 ∧
      (updateSpritesTrace (enableSprite exManager 0) 1).count
          (.artboardAdvance 0 1) = 1 := by
  have h := c10_enable_idempotent exManager 0 (by decide) (by decide)
  exact ⟨h.1, h.2 1⟩

/-- C6: for positive native dimensions, whenever `maxWidth` is set
positive (with `maxHeight` arbitrary — width is authoritative) the
computed pair keeps `maxWidth` and satisfies `width / height = W / H`;
whenever only `maxHeight` is set positive the pair keeps `maxHeight` and
satisfies the same ratio; when neither is set the result is `(W, H)`. -/
theorem c6_aspect_preserved (bounds : ArtboardBounds) (maxWidth maxHeight : ℚ)
    (hW : 0 < bounds.maxX - bounds.minX) (hH : 0 < bounds.maxY - bounds.minY) :
    (0 < maxWidth →
      (updateDimensions bounds maxWidth maxHeight).1 = maxWidth ∧
        (updateDimensions bounds maxWidth maxHeight).1 /
            (updateDimensions bounds maxWidth maxHeight).2 =
          (bounds.maxX - bounds.minX) / (bounds.maxY - bounds.minY)) ∧
      (maxWidth = 0 → 0 < maxHeight →
        (updateDimensions bounds maxWidth maxHeight).2 = maxHeight ∧
          (updateDimensions bounds maxWidth maxHeight).1 /
              (updateDimensions bounds maxWidth maxHeight).2 =
            (bounds.maxX - bounds.minX) / (bounds.maxY - bounds.minY)) ∧
      (maxWidth = 0 → maxHeight = 0 →
        updateDimensions bounds maxWidth maxHeight =
          (bounds.maxX - bounds.minX, bounds.maxY - bounds.minY)) := by
  set W : ℚ := bounds.maxX - bounds.minX with hWdef
  set H : ℚ := bounds.maxY - bounds.minY with hHdef
  have hW0 : W ≠ 0 := ne_of_gt hW
  have hH0 : H ≠ 0 := ne_of_gt hH
  refine ⟨?_, ?_, ?_⟩
  · intro hpos
    have hne : maxWidth ≠ 0 := ne_of_gt hpos
    unfold updateDimensions
    rw [if_pos hne]
    refine ⟨rfl, ?_⟩
    show maxWidth / (maxWidth / (W / H)) = W / H
    rw [div_div_eq_mul_div, mul_comm, mul_div_assoc, div_self hne, mul_one]
  · intro hzero hpos
    have hne : maxHeight ≠ 0 := ne_of_gt hpos
    unfold updateDimensions
    rw [if_neg (by rw [hzero]; exact fun h => h rfl), if_pos hne]
    refine ⟨rfl, ?_⟩
    show maxHeight * (W / H) / maxHeight = W / H
    rw [mul_comm, mul_div_assoc, div_self hne, mul_one]
  · intro hzero1 hzero2
    unfold updateDimensions
    rw [if_neg (by rw [hzero1]; exact fun h => h rfl),
      if_neg (by rw [hzero2]; exact fun h => h rfl)]

/-- Witness for C6 at native bounds 4×2 with maxWidth 8 (and a stale
maxHeight 5): the computed pair is `(8, 4)`, ratio `2 = 4 / 2`. -/
theorem c6_witness :
    (updateDimensions ⟨0, 0, 4, 2⟩ 8 5).1 = 8 ∧
      (updateDimensions ⟨0, 0, 4, 2⟩ 8 5).1 /
          (updateDimensions ⟨0, 0, 4, 2⟩ 8 5).2 =
        ((4 : ℚ) - 0) / ((2 : ℚ) - 0) :=
  (c6_aspect_preserved ⟨0, 0, 4, 2⟩ 8 5 (by norm_num) (by norm_num)).1
    (by norm_num)

end RivePixi

